import Mathlib

/-!
# go-face-blur: region redaction, format dispatch and start-up

A shallow embedding of `src/facebluring/facebluring.go`.

Go `int` values are embedded as `Int` (image coordinates stay far from the
64-bit range, so no wrap-around is modelled) and Go's `/` on `int` is the
truncating `Int.tdiv`.  The calls into the Go standard library (`image`,
`path/filepath`) and into `imaging`, `gg` and `pigo` are embedded from the
behaviour of the called functions; what they compute on pixel values
(the Gaussian kernel, alpha compositing, the codecs, the cascade) is kept
as a parameter.
-/

namespace FaceBlur

/-! ## Data model -/

/-- The type `pigo.Detection`: centre `(Row, Col)`, window side `Scale`, score `Q`. -/
structure Detection where
  Row : Int
  Col : Int
  Scale : Int
  Q : ℚ
  deriving DecidableEq, Repr

/-- The type `image.Point`. -/
structure Point where
  X : Int
  Y : Int
  deriving DecidableEq, Repr

/-- The type `image.Rectangle`: the points with `Min.X ≤ x < Max.X`, `Min.Y ≤ y < Max.Y`. -/
structure Rectangle where
  Min : Point
  Max : Point
  deriving DecidableEq, Repr

/-- The zero rectangle `image.ZR`. -/
def ZR : Rectangle := ⟨⟨0, 0⟩, ⟨0, 0⟩⟩

/-- The constructor `image.Rect(x0, y0, x1, y1)`: swaps the coordinates of an axis when
they come in the wrong order. -/
def Rect (x0 y0 x1 y1 : Int) : Rectangle :=
  let xs : Int × Int := if x0 > x1 then (x1, x0) else (x0, x1)
  let ys : Int × Int := if y0 > y1 then (y1, y0) else (y0, y1)
  ⟨⟨xs.1, ys.1⟩, ⟨xs.2, ys.2⟩⟩

/-- The method `Rectangle.Dx`: the width. -/
def Rectangle.Dx (r : Rectangle) : Int := r.Max.X - r.Min.X

/-- The method `Rectangle.Dy`: the height. -/
def Rectangle.Dy (r : Rectangle) : Int := r.Max.Y - r.Min.Y

/-- The method `Rectangle.Empty`. -/
def Rectangle.Empty (r : Rectangle) : Bool :=
  decide (r.Min.X ≥ r.Max.X) || decide (r.Min.Y ≥ r.Max.Y)

/-- The method `Rectangle.Sub`: translation by `-p`. -/
def Rectangle.Sub (r : Rectangle) (p : Point) : Rectangle :=
  ⟨⟨r.Min.X - p.X, r.Min.Y - p.Y⟩, ⟨r.Max.X - p.X, r.Max.Y - p.Y⟩⟩

/-- The method `Rectangle.Intersect`: the four coordinates are clamped one by one and an
empty result is replaced by `ZR`. -/
def Rectangle.Intersect (r s : Rectangle) : Rectangle :=
  let minX := if r.Min.X < s.Min.X then s.Min.X else r.Min.X
  let minY := if r.Min.Y < s.Min.Y then s.Min.Y else r.Min.Y
  let maxX := if r.Max.X > s.Max.X then s.Max.X else r.Max.X
  let maxY := if r.Max.Y > s.Max.Y then s.Max.Y else r.Max.Y
  let r1 : Rectangle := ⟨⟨minX, minY⟩, ⟨maxX, maxY⟩⟩
  if r1.Empty then ZR else r1

/-- The method `Point.In`: membership of a point in a rectangle. -/
def Point.In (p : Point) (r : Rectangle) : Bool :=
  decide (r.Min.X ≤ p.X) && decide (p.X < r.Max.X) &&
    decide (r.Min.Y ≤ p.Y) && decide (p.Y < r.Max.Y)

/-- An image: its bounds and the pixel at each coordinate (`image.Image` with `Bounds`
and `At`).  The pixel type `α` is left open. -/
structure Image (α : Type) where
  Bounds : Rectangle
  At : Int → Int → α

/-- The canvas `gg.NewContext(cols, rows)` holds after `DrawImage(src, 0, 0)`: an image
with bounds `image.Rect(0, 0, cols, rows)`. -/
def newCanvas {α : Type} (cols rows : Int) (pix : Int → Int → α) : Image α :=
  ⟨Rect 0 0 cols rows, pix⟩

/-! ## Library calls made by `blurFaces` -/

/-- The function `imaging.Crop(img, rect)`: with `r = rect.Intersect(img.Bounds()).Sub(img.Bounds().Min)`,
an empty `r` gives the empty image `&image.NRGBA{}`; otherwise the result has bounds
`image.Rect(0, 0, r.Dx(), r.Dy())` and holds the source pixels of `r` (this covers the
`Clone` shortcut taken when `r` is the whole image).  Outside its bounds an image reads
as the zero colour `default`. -/
def Crop {α : Type} [Inhabited α] (img : Image α) (rect : Rectangle) : Image α :=
  let r := (rect.Intersect img.Bounds).Sub img.Bounds.Min
  if r.Empty then ⟨ZR, fun _ _ => default⟩
  else
    ⟨Rect 0 0 r.Dx r.Dy, fun x y =>
      if (Point.mk x y).In (Rect 0 0 r.Dx r.Dy) then
        img.At (img.Bounds.Min.X + r.Min.X + x) (img.Bounds.Min.Y + r.Min.Y + y)
      else default⟩

/-- The function `imaging.Blur(img, sigma)` with the fixed `sigma = 5.0`: the result is a
new image with bounds `image.Rect(0, 0, w, h)` of the size of the input; the Gaussian
filter that computes its pixels is the parameter `filt`. -/
def Blur {α : Type} (filt : Image α → Int → Int → α) (img : Image α) : Image α :=
  ⟨Rect 0 0 img.Bounds.Dx img.Bounds.Dy, filt img⟩

/-- The method `gg.Context.DrawImage(im, x, y)` on a context with the identity matrix and
no mask, as `gg.NewContext` creates it: the bilinear transform reduces to
`draw.Copy(dc.im, (x, y), im, im.Bounds(), draw.Over)`, which composites pixel
`im.Bounds().Min + (i, j)` of `im` over canvas pixel `(x + i, y + j)` wherever that
pixel lies in the canvas, and leaves every other canvas pixel as it is.  The
compositing operator on pixel values is the parameter `over`. -/
def DrawImage {α : Type} (over : α → α → α) (dc im : Image α) (x y : Int) : Image α :=
  ⟨dc.Bounds, fun px py =>
    if (Point.mk px py).In dc.Bounds &&
        (Point.mk (px - x + im.Bounds.Min.X) (py - y + im.Bounds.Min.Y)).In im.Bounds then
      over (im.At (px - x + im.Bounds.Min.X) (py - y + im.Bounds.Min.Y)) (dc.At px py)
    else dc.At px py⟩

/-! ## `blurFaces` -/

/-- The rectangle `rect` computed in the loop body of `blurFaces`. -/
def faceRect (face : Detection) : Rectangle :=
  Rect (face.Col - face.Scale.tdiv 2) (face.Row - face.Scale.tdiv 2)
    (face.Col + face.Scale.tdiv 2) (face.Row + face.Scale.tdiv 2)

/-- The point `(face.Col-face.Scale/2, face.Row-face.Scale/2)` at which the loop body of
`blurFaces` draws the blurred patch. -/
def pasteOrigin (face : Detection) : Point :=
  ⟨face.Col - face.Scale.tdiv 2, face.Row - face.Scale.tdiv 2⟩

/-- The region of the canvas that `imaging.Crop(f.dc.Image(), rect)` reads. -/
def cropRegion {α : Type} (dc : Image α) (face : Detection) : Rectangle :=
  (faceRect face).Intersect dc.Bounds

/-- One iteration of the loop of `blurFaces`: crop, blur, draw. -/
def blurFace {α : Type} [Inhabited α] (filt : Image α → Int → Int → α) (over : α → α → α)
    (dc : Image α) (face : Detection) : Image α :=
  let rect := faceRect face
  let faceZone := Crop dc rect
  let blurImage := Blur filt faceZone
  DrawImage over dc blurImage (face.Col - face.Scale.tdiv 2) (face.Row - face.Scale.tdiv 2)

/-- The method `blurFaces`: the loop over the detections, acting on the canvas `f.dc`. -/
def blurFaces {α : Type} [Inhabited α] (filt : Image α → Int → Int → α) (over : α → α → α)
    (dc : Image α) (faces : List Detection) : Image α :=
  faces.foldl (blurFace filt over) dc

/-! ## Format dispatch: `encodeImage` -/

/-- The scan of `filepath.Ext` from the end of the path: `rev` holds the characters not
yet visited, last one first, and `acc` the suffix already passed.  The scan stops
without an extension at a path separator and returns the suffix from the first dot it
meets. -/
def extScan : List Char → List Char → List Char
  | [], _ => []
  | c :: rev, acc =>
    if c = '/' then [] else if c = '.' then '.' :: acc else extScan rev (c :: acc)

/-- The function `filepath.Ext(path)`: the suffix beginning at the final dot in the
final element of `path`, empty if there is no dot. -/
def Ext (path : String) : String := ⟨extScan path.data.reverse []⟩

/-- The destination `dst io.Writer` as far as the type switch of `encodeImage` tells
writers apart: an `*os.File` with its `Name()`, or any other writer. -/
inductive Writer where
  | osFile (name : String)
  | other
  deriving DecidableEq, Repr

/-- An encoder invocation on the destination: `jpeg.Encode` with its `Quality` option, or
`png.Encode`. -/
inductive EncoderCall where
  | jpeg (quality : Int)
  | png
  deriving DecidableEq, Repr

/-- What `encodeImage` did: the encoder invocations it made on the destination, in
order, and the error it returned (`none` is `nil`). -/
structure EncodeOutcome where
  calls : List EncoderCall
  err : Option String
  deriving DecidableEq, Repr

/-- The method `encodeImage`, on the canvas `img = f.dc.Image()`.  The parameter `enc`
gives the error returned by an encoder invocation on this canvas and destination. -/
def encodeImage {α : Type} (enc : EncoderCall → Image α → Writer → Option String)
    (img : Image α) (dst : Writer) : EncodeOutcome :=
  match dst with
  | .osFile name =>
    let ext := Ext name
    if ext = "" ∨ ext = ".jpg" ∨ ext = ".jpeg" then
      ⟨[.jpeg 100], enc (.jpeg 100) img dst⟩
    else if ext = ".png" then
      ⟨[.png], enc .png img dst⟩
    else
      ⟨[], some "unsupported image format"⟩
  | .other => ⟨[.jpeg 100], enc (.jpeg 100) img dst⟩

/-! ## Configuration and start-up: `New` -/

/-- A `float64` value as far as the code inspects it: `finite q` stands for the value a
literal denotes (both zeros are `finite 0`), next to the infinities and NaN.  Rounding
is not modelled. -/
inductive Float64 where
  | finite (q : ℚ)
  | inf (negative : Bool)
  | nan
  deriving DecidableEq

/-- The comparison `x == 0` on `float64`: true for the zeros only. -/
def Float64.eqZero : Float64 → Bool
  | .finite q => decide (q = 0)
  | _ => false

/-- The struct `Config`. -/
structure Config where
  Angle : Float64
  CascadeFile : String
  Destination : String
  MinSize : Int
  MaxSize : Int
  ShiftFactor : Float64
  ScaleFactor : Float64
  IouThreshold : Float64
  Puploc : String
  Flploc : String
  MarkDetEyes : Bool
  deriving DecidableEq

/-- The zero value `&Config{}`. -/
def Config.zero : Config :=
  ⟨.finite 0, "", "", 0, 0, .finite 0, .finite 0, .finite 0, "", "", false⟩

/-- The struct `pigo.ImageParams`. -/
structure ImageParams where
  Pixels : List Nat
  Rows : Int
  Cols : Int
  Dim : Int

/-- The struct `pigo.CascadeParams`. -/
structure CascadeParams where
  MinSize : Int
  MaxSize : Int
  ShiftFactor : Float64
  ScaleFactor : Float64
  ImageParams : ImageParams

/-- An unpacked classifier `*pigo.Pigo`, seen through the two methods the code calls. -/
structure Pigo where
  RunCascade : CascadeParams → Float64 → List Detection
  ClusterDetections : List Detection → Float64 → List Detection

/-- The operations of the environment and of the libraries that the code calls; an error
is its message.  `π` and `φ` are the types `*pigo.PuplocCascade` and
`map[string][]*pigo.FlpCascade`. -/
structure Lib (α π φ : Type) where
  ReadFile : String → Except String (List Nat)
  Unpack : List Nat → Except String Pigo
  UnpackCascade : List Nat → Except String π
  ReadCascadeDir : String → Except String φ
  osOpen : String → Except String (List Nat)
  DecodeImage : List Nat → Except String (Image α)
  RgbToGrayscale : Image α → List Nat
  filt : Image α → Int → Int → α
  over : α → α → α
  enc : EncoderCall → Image α → Writer → Option String

/-- The struct `FaceBluring`; a nil `dc`, `plc` or `flpcs` is `none`. -/
structure FaceBluring (α π φ : Type) where
  dc : Option (Image α)
  fd : Config
  plc : Option π
  flpcs : Option φ
  classifier : Pigo

/-- Lines 45-71 of `New`: a nil config becomes `&Config{}`, then each of the five
options that equals zero is set to its default. -/
def resolveConfig (config : Option Config) : Config :=
  let fd := match config with
    | none => Config.zero
    | some c => c
  let fd := if fd.MinSize = 0 then { fd with MinSize := 20 } else fd
  let fd := if fd.MaxSize = 0 then { fd with MaxSize := 1000 } else fd
  let fd := if fd.ShiftFactor.eqZero then { fd with ShiftFactor := .finite (1 / 10) } else fd
  let fd := if fd.ScaleFactor.eqZero then { fd with ScaleFactor := .finite (11 / 10) } else fd
  let fd := if fd.IouThreshold.eqZero then { fd with IouThreshold := .finite (2 / 10) } else fd
  fd

/-- Lines 86-105 of `New`: the optional pupil and landmark cascades. -/
def loadPuploc {α π φ : Type} (lib : Lib α π φ) (fd : Config) :
    Except String (Option π × Option φ) :=
  if fd.Puploc.length > 0 then
    match lib.ReadFile fd.Puploc with
    | .error err => .error ("Can not open Puploc file " ++ fd.Puploc ++ " error: " ++ err)
    | .ok cascade =>
      match lib.UnpackCascade cascade with
      | .error err => .error ("Unpack cascade Puploc file error: " ++ err)
      | .ok plc =>
        if fd.Flploc.length > 0 then
          match lib.ReadCascadeDir fd.Flploc with
          | .error err => .error ("Read cascade dir error: " ++ err)
          | .ok flpcs => .ok (some plc, some flpcs)
        else .ok (some plc, none)
  else .ok (none, none)

/-- The function `New`.  A `panic(fmt.Errorf(...))` is the result `.error` with the
message of the panic value; `.ok` is the returned instance. -/
def New {α π φ : Type} (lib : Lib α π φ) (config : Option Config) :
    Except String (FaceBluring α π φ) :=
  let fd := resolveConfig config
  match lib.ReadFile fd.CascadeFile with
  | .error err => .error ("Can not open cascade file " ++ fd.CascadeFile ++ " error: " ++ err)
  | .ok cascadeFile =>
    match lib.Unpack cascadeFile with
    | .error err => .error ("Unpack cascade file error: " ++ err)
    | .ok classifier =>
      match loadPuploc lib fd with
      | .error msg => .error msg
      | .ok (plc, flpcs) => .ok ⟨none, fd, plc, flpcs, classifier⟩

/-! ## The pipeline: `detectFaces` and `BlurFaces` -/

/-- A call that leaves the process, recorded in the order the calls are made. -/
inductive Event where
  | osOpen (source : String)
  | close
  | decodeImage
  | runCascade
  | clusterDetections (iouThreshold : Float64)
  | encode (call : EncoderCall)
  deriving DecidableEq

/-- What `detectFaces` returns and does: the instance with its new `dc`, the pair
`(faces, err)` as an `Except`, and the calls made. -/
structure DetectOutcome (α π φ : Type) where
  f : FaceBluring α π φ
  result : Except String (List Detection)
  trace : List Event

/-- The method `detectFaces`. -/
def detectFaces {α π φ : Type} [Inhabited α] (lib : Lib α π φ) (f : FaceBluring α π φ)
    (source : String) : DetectOutcome α π φ :=
  match lib.osOpen source with
  | .error err => ⟨f, .error ("Can not open " ++ source ++ " error: " ++ err), [.osOpen source]⟩
  | .ok srcFile =>
    match lib.DecodeImage srcFile with
    | .error err =>
      ⟨f, .error ("Decode image error: " ++ err), [.osOpen source, .decodeImage, .close]⟩
    | .ok src =>
      let pixels := lib.RgbToGrayscale src
      let cols := src.Bounds.Max.X
      let rows := src.Bounds.Max.Y
      let dc := DrawImage lib.over (newCanvas cols rows (fun _ _ => default)) src 0 0
      let imgParams : ImageParams := ⟨pixels, rows, cols, cols⟩
      let cParams : CascadeParams :=
        ⟨f.fd.MinSize, f.fd.MaxSize, f.fd.ShiftFactor, f.fd.ScaleFactor, imgParams⟩
      let faces := f.classifier.RunCascade cParams f.fd.Angle
      let faces := f.classifier.ClusterDetections faces f.fd.IouThreshold
      ⟨{ f with dc := some dc }, .ok faces,
        [.osOpen source, .decodeImage, .runCascade, .clusterDetections f.fd.IouThreshold,
          .close]⟩

/-- What `BlurFaces` returns and does: the instance afterwards, the returned error, the
message of a run-time panic if one occurred, and the calls made. -/
structure BlurOutcome (α π φ : Type) where
  f : FaceBluring α π φ
  err : Option String
  panicked : Option String
  trace : List Event

/-- The method `BlurFaces`.  The methods `blurFaces` and `encodeImage` act on the canvas
`f.dc`; dereferencing a nil `f.dc` is the nil-pointer panic of the Go run time. -/
def BlurFaces {α π φ : Type} [Inhabited α] (lib : Lib α π φ) (f : FaceBluring α π φ)
    (source : String) (dst : Writer) : BlurOutcome α π φ :=
  let d := detectFaces lib f source
  match d.result with
  | .error err => ⟨d.f, some err, none, d.trace⟩
  | .ok faces =>
    match d.f.dc with
    | none =>
      ⟨d.f, none, some "runtime error: invalid memory address or nil pointer dereference",
        d.trace⟩
    | some dc =>
      let dc1 := blurFaces lib.filt lib.over dc faces
      let e := encodeImage lib.enc dc1 dst
      ⟨{ d.f with dc := some dc1 }, e.err, none, d.trace ++ e.calls.map Event.encode⟩

/-! ## Detection clustering -/

/-- Modelled from the spec: `pigo.ClusterDetections` is called by `detectFaces` but is not
under `src/`.  The overlap of two detections is the intersection area of their square
windows (centre `(Row, Col)`, side `Scale`) divided by their union area. -/
def iou (a b : Detection) : ℚ :=
  let overRow : ℚ := max 0 (min ((a.Row : ℚ) + a.Scale / 2) (b.Row + b.Scale / 2)
    - max ((a.Row : ℚ) - a.Scale / 2) (b.Row - b.Scale / 2))
  let overCol : ℚ := max 0 (min ((a.Col : ℚ) + a.Scale / 2) (b.Col + b.Scale / 2)
    - max ((a.Col : ℚ) - a.Scale / 2) (b.Col - b.Scale / 2))
  overRow * overCol / (a.Scale * a.Scale + b.Scale * b.Scale - overRow * overCol)

/-- Modelled from the spec: `pigo.ClusterDetections` is not under `src/`.  A detection is
grouped with a seed when its overlap with the seed exceeds the threshold. -/
def overlaps (τ : ℚ) (a b : Detection) : Bool := decide (iou a b > τ)

/-- Modelled from the spec: `pigo.ClusterDetections` is not under `src/`.  The stable
iteration order: descending score, equal scores keeping their input order. -/
def byScore (dets : List Detection) : List Detection :=
  dets.insertionSort (fun a b => a.Q ≥ b.Q)

/-- Modelled from the spec: `pigo.ClusterDetections` is not under `src/`.  The greedy
grouping over an overlap test `ov`: the first unclustered detection forms a cluster with
all remaining unclustered detections that overlap it, the cluster collapses to its
max-score member (the seed, in descending score order), and the rest is clustered the
same way.  The fuel bounds the number of clusters. -/
def greedy (ov : Detection → Detection → Bool) : Nat → List Detection → List Detection
  | 0, _ => []
  | _, [] => []
  | n + 1, d :: rest => d :: greedy ov n (rest.filter (fun e => !ov d e))

/-- Modelled from the spec: `pigo.ClusterDetections` is not under `src/`.  Clustering with
IoU threshold `τ`: greedy grouping in descending score order, with fuel for one cluster
per input detection. -/
def ClusterDetections (dets : List Detection) (τ : ℚ) : List Detection :=
  greedy (overlaps τ) dets.length (byScore dets)

/-- Four raw detections of side 10 with descending scores: a hub at `(10, 10)`, two
neighbours two columns to its left and right, and a top-scored detection three rows
below the hub. -/
def hubDetections : List Detection :=
  [⟨13, 10, 10, 4⟩, ⟨10, 10, 10, 3⟩, ⟨10, 8, 10, 2⟩, ⟨10, 12, 10, 1⟩]

/-- The windows of `hubDetections` with the scores in ascending order. -/
def hubDetectionsAscending : List Detection :=
  [⟨13, 10, 10, 1⟩, ⟨10, 10, 10, 2⟩, ⟨10, 8, 10, 3⟩, ⟨10, 12, 10, 4⟩]

/-- Three raw detections: two copies of one window and a window far away. -/
def farDetections : List Detection :=
  [⟨10, 10, 10, 3⟩, ⟨100, 100, 10, 2⟩, ⟨10, 10, 10, 1⟩]

/-! ## A small environment for evaluation -/

/-- A classifier that reports one fixed raw detection, which clustering keeps. -/
def demoPigo : Pigo where
  RunCascade := fun _ _ => [⟨5, 5, 4, 1⟩]
  ClusterDetections := fun dets _ => dets

/-- An environment in which the cascade file `./cascade/facefinder` and the images
`./3.jpg` (a 10 x 10 image) and `./corrupt.jpg` (not decodable) exist, with a filter
that returns the crop as it is, a compositing that replaces, and encoders that succeed. -/
def demoLib : Lib Int Unit Unit where
  ReadFile := fun name =>
    if name = "./cascade/facefinder" then .ok [1]
    else if name = "./cascade/broken" then .ok [0]
    else .error "no such file or directory"
  Unpack := fun bytes => if bytes = [1] then .ok demoPigo else .error "invalid cascade"
  UnpackCascade := fun _ => .ok ()
  ReadCascadeDir := fun _ => .ok ()
  osOpen := fun name =>
    if name = "./3.jpg" then .ok [2]
    else if name = "./corrupt.jpg" then .ok [3]
    else .error "no such file or directory"
  DecodeImage := fun bytes =>
    if bytes = [2] then .ok (newCanvas 10 10 (fun x y => x + 10 * y))
    else .error "image: unknown format"
  RgbToGrayscale := fun _ => []
  filt := fun img x y => img.At x y
  over := fun s _ => s
  enc := fun _ _ _ => none

/-- The configuration `main` passes to `New`: only `CascadeFile` is set. -/
def mainConfig : Config := { Config.zero with CascadeFile := "./cascade/facefinder" }

/-- The instance `New` returns in `demoLib` for the configuration of `main`. -/
def demoInstance : FaceBluring Int Unit Unit :=
  ⟨none, resolveConfig (some mainConfig), none, none, demoPigo⟩

/-! ## Region redaction: the crop rectangle -/

theorem Rect_ordered (x0 y0 x1 y1 : Int) (hx : x0 ≤ x1) (hy : y0 ≤ y1) :
    Rect x0 y0 x1 y1 = ⟨⟨x0, y0⟩, ⟨x1, y1⟩⟩ := by
  simp [Rect, not_lt.mpr hx, not_lt.mpr hy]

theorem faceRect_of_nonneg (face : Detection) (h : 0 ≤ face.Scale) :
    faceRect face = ⟨⟨face.Col - face.Scale / 2, face.Row - face.Scale / 2⟩,
      ⟨face.Col + face.Scale / 2, face.Row + face.Scale / 2⟩⟩ := by
  have ht : face.Scale.tdiv 2 = face.Scale / 2 := Int.tdiv_eq_ediv h (by decide)
  unfold faceRect
  rw [ht]
  exact Rect_ordered _ _ _ _ (by omega) (by omega)

/-- C2: for a detection with `Scale ≥ 0` the rectangle computed by `blurFaces` is
`[Col - Scale/2, Row - Scale/2, Col + Scale/2, Row + Scale/2]` with floor division; it is
a square of side `2 * floor(Scale / 2)`, which is `Scale` for an even and `Scale - 1` for
an odd scale, and its min corner is `(Col - floor(Scale/2), Row - floor(Scale/2))`. -/
theorem faceRect_square (face : Detection) (h : 0 ≤ face.Scale) :
    faceRect face = ⟨⟨face.Col - face.Scale.fdiv 2, face.Row - face.Scale.fdiv 2⟩,
      ⟨face.Col + face.Scale.fdiv 2, face.Row + face.Scale.fdiv 2⟩⟩ ∧
    (faceRect face).Dx = 2 * face.Scale.fdiv 2 ∧
    (faceRect face).Dy = 2 * face.Scale.fdiv 2 ∧
    (face.Scale % 2 = 0 → (faceRect face).Dx = face.Scale ∧ (faceRect face).Dy = face.Scale) ∧
    (face.Scale % 2 = 1 →
      (faceRect face).Dx = face.Scale - 1 ∧ (faceRect face).Dy = face.Scale - 1) ∧
    (faceRect face).Min = ⟨face.Col - face.Scale.fdiv 2, face.Row - face.Scale.fdiv 2⟩ := by
  have hf : face.Scale.fdiv 2 = face.Scale / 2 := Int.fdiv_eq_ediv _ (by decide)
  rw [faceRect_of_nonneg face h, hf]
  simp only [Rectangle.Dx, Rectangle.Dy]
  refine ⟨trivial, by omega, by omega, fun _ => ⟨by omega, by omega⟩,
    fun _ => ⟨by omega, by omega⟩, trivial⟩

theorem faceRect_square_witness :
    (0 : Int) ≤ (Detection.mk 40 50 7 1).Scale ∧
      (faceRect ⟨40, 50, 7, 1⟩).Dx = 7 - 1 ∧ (faceRect ⟨40, 50, 7, 1⟩).Min = ⟨47, 37⟩ :=
  ⟨by decide, ((faceRect_square ⟨40, 50, 7, 1⟩ (by decide)).2.2.2.2.1 (by decide)).1,
    (faceRect_square ⟨40, 50, 7, 1⟩ (by decide)).2.2.2.2.2⟩

/-! ## Region redaction: clipping to the canvas -/

theorem In_iff (p : Point) (r : Rectangle) :
    p.In r = true ↔ r.Min.X ≤ p.X ∧ p.X < r.Max.X ∧ r.Min.Y ≤ p.Y ∧ p.Y < r.Max.Y := by
  simp [Point.In, and_assoc]

theorem Empty_iff (r : Rectangle) :
    r.Empty = true ↔ r.Max.X ≤ r.Min.X ∨ r.Max.Y ≤ r.Min.Y := by
  simp [Rectangle.Empty]

theorem In_ZR (p : Point) : p.In ZR = false := by
  rw [← Bool.not_eq_true, In_iff]
  simp only [ZR]
  omega

/-- The two outcomes of `Intersect`: the zero rectangle when the clamped rectangle is
empty, the clamped rectangle otherwise. -/
theorem Intersect_cases (r s : Rectangle) :
    (r.Intersect s = ZR ∧
      (max r.Min.X s.Min.X ≥ min r.Max.X s.Max.X ∨ max r.Min.Y s.Min.Y ≥ min r.Max.Y s.Max.Y)) ∨
    (r.Intersect s = ⟨⟨max r.Min.X s.Min.X, max r.Min.Y s.Min.Y⟩,
        ⟨min r.Max.X s.Max.X, min r.Max.Y s.Max.Y⟩⟩ ∧
      max r.Min.X s.Min.X < min r.Max.X s.Max.X ∧ max r.Min.Y s.Min.Y < min r.Max.Y s.Max.Y) := by
  have e1 : (if r.Min.X < s.Min.X then s.Min.X else r.Min.X) = max r.Min.X s.Min.X := by
    split_ifs <;> omega
  have e2 : (if r.Min.Y < s.Min.Y then s.Min.Y else r.Min.Y) = max r.Min.Y s.Min.Y := by
    split_ifs <;> omega
  have e3 : (if r.Max.X > s.Max.X then s.Max.X else r.Max.X) = min r.Max.X s.Max.X := by
    split_ifs <;> omega
  have e4 : (if r.Max.Y > s.Max.Y then s.Max.Y else r.Max.Y) = min r.Max.Y s.Max.Y := by
    split_ifs <;> omega
  simp only [Rectangle.Intersect, e1, e2, e3, e4]
  split_ifs with h
  · rw [Empty_iff] at h
    exact Or.inl ⟨rfl, h⟩
  · rw [Empty_iff] at h
    refine Or.inr ⟨rfl, ?_, ?_⟩ <;> simp only at h <;> omega

theorem In_Intersect (p : Point) (r s : Rectangle) :
    p.In (r.Intersect s) = (p.In r && p.In s) := by
  rw [Bool.eq_iff_iff, Bool.and_eq_true, In_iff, In_iff, In_iff]
  rcases Intersect_cases r s with ⟨h, hz⟩ | ⟨h, hx, hy⟩
  · rw [h]
    simp only [ZR]
    omega
  · rw [h]
    simp only
    omega

theorem Rect_origin (w h : Int) (hw : 0 ≤ w) (hh : 0 ≤ h) :
    Rect 0 0 w h = ⟨⟨0, 0⟩, ⟨w, h⟩⟩ := Rect_ordered 0 0 w h hw hh

theorem newCanvas_Bounds {α : Type} (W H : Nat) (pix : Int → Int → α) :
    (newCanvas (W : Int) (H : Int) pix).Bounds = ⟨⟨0, 0⟩, ⟨W, H⟩⟩ :=
  Rect_origin _ _ (Int.ofNat_nonneg W) (Int.ofNat_nonneg H)

theorem Crop_of_empty {α : Type} [Inhabited α] (img : Image α) (rect : Rectangle)
    (h : ((rect.Intersect img.Bounds).Sub img.Bounds.Min).Empty = true) :
    Crop img rect = ⟨ZR, fun _ _ => default⟩ := by
  unfold Crop
  simp only [h, if_true]

theorem Crop_of_nonempty {α : Type} [Inhabited α] (img : Image α) (rect : Rectangle)
    (h : ((rect.Intersect img.Bounds).Sub img.Bounds.Min).Empty = false) :
    Crop img rect =
      ⟨Rect 0 0 ((rect.Intersect img.Bounds).Sub img.Bounds.Min).Dx
          ((rect.Intersect img.Bounds).Sub img.Bounds.Min).Dy, fun x y =>
        if (Point.mk x y).In (Rect 0 0 ((rect.Intersect img.Bounds).Sub img.Bounds.Min).Dx
            ((rect.Intersect img.Bounds).Sub img.Bounds.Min).Dy) then
          img.At (img.Bounds.Min.X + ((rect.Intersect img.Bounds).Sub img.Bounds.Min).Min.X + x)
            (img.Bounds.Min.Y + ((rect.Intersect img.Bounds).Sub img.Bounds.Min).Min.Y + y)
        else default⟩ := by
  unfold Crop
  simp only [h, Bool.false_eq_true, if_false]

theorem Sub_Empty (r : Rectangle) (p : Point) : (r.Sub p).Empty = r.Empty := by
  rw [Bool.eq_iff_iff, Empty_iff, Empty_iff]
  simp only [Rectangle.Sub]
  omega

theorem Sub_Dx (r : Rectangle) (p : Point) : (r.Sub p).Dx = r.Dx := by
  simp only [Rectangle.Sub, Rectangle.Dx]
  omega

theorem Sub_Dy (r : Rectangle) (p : Point) : (r.Sub p).Dy = r.Dy := by
  simp only [Rectangle.Sub, Rectangle.Dy]
  omega

theorem Intersect_Empty_eq_ZR (r s : Rectangle) (h : (r.Intersect s).Empty = true) :
    r.Intersect s = ZR := by
  rcases Intersect_cases r s with ⟨h1, _⟩ | ⟨h1, hx, hy⟩
  · exact h1
  · rw [h1, Empty_iff] at h
    simp only at h
    omega

/-- What `Crop` returns, in terms of the region `rect.Intersect(img.Bounds())`: an image
whose bounds are the size of the region, holding the pixels of the region. -/
theorem Crop_spec {α : Type} [Inhabited α] (img : Image α) (rect : Rectangle) :
    (Crop img rect).Bounds =
        Rect 0 0 (rect.Intersect img.Bounds).Dx (rect.Intersect img.Bounds).Dy ∧
      ((rect.Intersect img.Bounds).Empty = true → (Crop img rect).Bounds = ZR) ∧
      ∀ x y, (Point.mk x y).In (rect.Intersect img.Bounds) = true →
        (Crop img rect).At (x - (rect.Intersect img.Bounds).Min.X)
          (y - (rect.Intersect img.Bounds).Min.Y) = img.At x y := by
  cases he : (rect.Intersect img.Bounds).Empty
  · have he2 : ((rect.Intersect img.Bounds).Sub img.Bounds.Min).Empty = false := by
      rw [Sub_Empty, he]
    have hne := he
    rw [← Bool.not_eq_true, Empty_iff] at hne
    rw [Crop_of_nonempty img rect he2, Sub_Dx, Sub_Dy]
    refine ⟨rfl, fun hemp => absurd hemp (by decide), ?_⟩
    intro x y hin
    rw [In_iff] at hin
    simp only at hin
    have hin2 : (Point.mk (x - (rect.Intersect img.Bounds).Min.X)
        (y - (rect.Intersect img.Bounds).Min.Y)).In
          (Rect 0 0 (rect.Intersect img.Bounds).Dx (rect.Intersect img.Bounds).Dy) = true := by
      rw [Rect_origin _ _ (by simp only [Rectangle.Dx]; omega)
        (by simp only [Rectangle.Dy]; omega), In_iff]
      simp only [Rectangle.Dx, Rectangle.Dy]
      omega
    simp only [hin2, if_true, Rectangle.Sub]
    congr 1 <;> omega
  · have he2 : ((rect.Intersect img.Bounds).Sub img.Bounds.Min).Empty = true := by
      rw [Sub_Empty, he]
    rw [Crop_of_empty img rect he2, Intersect_Empty_eq_ZR _ _ he]
    refine ⟨rfl, fun _ => rfl, ?_⟩
    intro x y hin
    rw [In_ZR] at hin
    exact absurd hin (by decide)

/-- C3: on a canvas of size `W x H` the region that `blurFaces` crops for a detection is
exactly the computed rectangle clipped to the canvas: it holds the points of the
rectangle that lie in `[0,W) x [0,H)`, its coordinates stay inside the canvas (nothing
wraps), a non-empty region has each side clamped to the canvas edge, and `Crop` (a
total function: it cannot fail) returns the pixels of that region, an empty image when
the region is empty. -/
theorem Crop_clips_to_canvas {α : Type} [Inhabited α] (W H : Nat) (pix : Int → Int → α)
    (face : Detection) :
    (∀ p : Point, p.In (cropRegion (newCanvas (W : Int) (H : Int) pix) face)
        = (p.In (faceRect face) && (decide (0 ≤ p.X) && decide (p.X < W) &&
            decide (0 ≤ p.Y) && decide (p.Y < H)))) ∧
      (0 ≤ (cropRegion (newCanvas (W : Int) (H : Int) pix) face).Min.X ∧
        (cropRegion (newCanvas (W : Int) (H : Int) pix) face).Min.X
          ≤ (cropRegion (newCanvas (W : Int) (H : Int) pix) face).Max.X ∧
        (cropRegion (newCanvas (W : Int) (H : Int) pix) face).Max.X ≤ W ∧
        0 ≤ (cropRegion (newCanvas (W : Int) (H : Int) pix) face).Min.Y ∧
        (cropRegion (newCanvas (W : Int) (H : Int) pix) face).Min.Y
          ≤ (cropRegion (newCanvas (W : Int) (H : Int) pix) face).Max.Y ∧
        (cropRegion (newCanvas (W : Int) (H : Int) pix) face).Max.Y ≤ H) ∧
      ((cropRegion (newCanvas (W : Int) (H : Int) pix) face).Empty = false →
        cropRegion (newCanvas (W : Int) (H : Int) pix) face =
          ⟨⟨max (faceRect face).Min.X 0, max (faceRect face).Min.Y 0⟩,
            ⟨min (faceRect face).Max.X W, min (faceRect face).Max.Y H⟩⟩) ∧
      (Crop (newCanvas (W : Int) (H : Int) pix) (faceRect face)).Bounds =
        Rect 0 0 (cropRegion (newCanvas (W : Int) (H : Int) pix) face).Dx
          (cropRegion (newCanvas (W : Int) (H : Int) pix) face).Dy ∧
      ((cropRegion (newCanvas (W : Int) (H : Int) pix) face).Empty = true →
        (Crop (newCanvas (W : Int) (H : Int) pix) (faceRect face)).Bounds = ZR) ∧
      (∀ x y, (Point.mk x y).In (cropRegion (newCanvas (W : Int) (H : Int) pix) face) = true →
        (Crop (newCanvas (W : Int) (H : Int) pix) (faceRect face)).At
            (x - (cropRegion (newCanvas (W : Int) (H : Int) pix) face).Min.X)
            (y - (cropRegion (newCanvas (W : Int) (H : Int) pix) face).Min.Y) = pix x y) := by
  have hb := newCanvas_Bounds W H pix
  have hc := Crop_spec (newCanvas (W : Int) (H : Int) pix) (faceRect face)
  have hW : (0 : Int) ≤ W := Int.ofNat_nonneg W
  have hH : (0 : Int) ≤ H := Int.ofNat_nonneg H
  refine ⟨fun p => ?_, ?_, ?_, hc.1, ?_, hc.2.2⟩
  · rw [cropRegion, In_Intersect, hb]
    rfl
  · rcases Intersect_cases (faceRect face) (newCanvas (W : Int) (H : Int) pix).Bounds with
      ⟨h, _⟩ | ⟨h, hx, hy⟩
    · rw [cropRegion, h]
      simp only [ZR]
      omega
    · rw [cropRegion, h]
      rw [hb] at hx hy ⊢
      simp only at hx hy ⊢
      omega
  · intro hne
    rcases Intersect_cases (faceRect face) (newCanvas (W : Int) (H : Int) pix).Bounds with
      ⟨h, _⟩ | ⟨h, _, _⟩
    · rw [cropRegion, h] at hne
      exact absurd hne (by decide)
    · rw [cropRegion, h, hb]
  · exact hc.2.1

theorem Crop_clips_to_canvas_witness :
    (cropRegion (newCanvas ((10 : Nat) : Int) ((10 : Nat) : Int) (fun x y => (x, y)))
        ⟨2, 2, 10, 0⟩).Empty = false ∧
      cropRegion (newCanvas ((10 : Nat) : Int) ((10 : Nat) : Int) (fun x y => (x, y)))
        ⟨2, 2, 10, 0⟩ = ⟨⟨max (-3) 0, max (-3) 0⟩, ⟨min 7 ((10 : Nat) : Int), min 7 ((10 : Nat) : Int)⟩⟩ :=
  ⟨by decide,
    (Crop_clips_to_canvas 10 10 (fun x y => (x, y)) ⟨2, 2, 10, 0⟩).2.2.1 (by decide)⟩

/-! ## Region redaction: where the patch is pasted -/

/-- The loop body of `blurFaces` draws the blurred crop at `pasteOrigin`. -/
theorem blurFace_eq {α : Type} [Inhabited α] (filt : Image α → Int → Int → α)
    (over : α → α → α) (dc : Image α) (face : Detection) :
    blurFace filt over dc face =
      DrawImage over dc (Blur filt (Crop dc (faceRect face)))
        (pasteOrigin face).X (pasteOrigin face).Y := rfl

/-- When the rectangle of a detection with `Scale ≥ 0` starts inside the canvas and the
cropped region is not empty, the paste origin is the top-left corner of the region. -/
theorem pasteOrigin_eq_of_inside {α : Type} (dc : Image α) (face : Detection)
    (h : 0 ≤ face.Scale) (hx : dc.Bounds.Min.X ≤ face.Col - face.Scale / 2)
    (hy : dc.Bounds.Min.Y ≤ face.Row - face.Scale / 2)
    (hne : (cropRegion dc face).Empty = false) :
    pasteOrigin face = (cropRegion dc face).Min := by
  have ht : face.Scale.tdiv 2 = face.Scale / 2 := Int.tdiv_eq_ediv h (by decide)
  rcases Intersect_cases (faceRect face) dc.Bounds with ⟨h1, _⟩ | ⟨h1, _, _⟩
  · rw [cropRegion, h1] at hne
    exact absurd hne (by decide)
  · rw [cropRegion, h1, faceRect_of_nonneg face h, pasteOrigin, ht]
    simp only [Point.mk.injEq]
    omega

/-- C1: on a 10 x 10 canvas the detection `(Row 2, Col 2, Scale 10)` has the rectangle
`[-3, -3, 7, 7]`, which starts left of and above the canvas.  The region cropped is
`[0, 0, 7, 7]` with top-left corner `(0, 0)`, but the patch is pasted at `(-3, -3)`:
with a filter that returns the crop as it is and a compositing that replaces, canvas
pixel `(0, 0)` ends up holding what was at `(3, 3)`, and pixel `(4, 4)`, inside the
cropped region, is not written at all. -/
theorem blurFaces_paste_shifted :
    (0 : Int) ≤ (Detection.mk 2 2 10 0).Scale ∧
      faceRect ⟨2, 2, 10, 0⟩ = ⟨⟨-3, -3⟩, ⟨7, 7⟩⟩ ∧
      cropRegion (newCanvas 10 10 (fun x y => (x, y))) ⟨2, 2, 10, 0⟩ = ⟨⟨0, 0⟩, ⟨7, 7⟩⟩ ∧
      pasteOrigin ⟨2, 2, 10, 0⟩ = ⟨-3, -3⟩ ∧
      pasteOrigin ⟨2, 2, 10, 0⟩
        ≠ (cropRegion (newCanvas 10 10 (fun x y => (x, y))) ⟨2, 2, 10, 0⟩).Min ∧
      (blurFaces (fun img x y => img.At x y) (fun s _ => s)
        (newCanvas 10 10 (fun x y => (x, y))) [⟨2, 2, 10, 0⟩]).At 0 0 = (3, 3) ∧
      (blurFaces (fun img x y => img.At x y) (fun s _ => s)
        (newCanvas 10 10 (fun x y => (x, y))) [⟨2, 2, 10, 0⟩]).At 4 4 = (4, 4) := by
  decide

/-! ## Region redaction: pixels outside the cropped regions -/

theorem blurFace_Bounds {α : Type} [Inhabited α] (filt : Image α → Int → Int → α)
    (over : α → α → α) (dc : Image α) (face : Detection) :
    (blurFace filt over dc face).Bounds = dc.Bounds := rfl

theorem blurFaces_Bounds {α : Type} [Inhabited α] (filt : Image α → Int → Int → α)
    (over : α → α → α) (faces : List Detection) (dc : Image α) :
    (blurFaces filt over dc faces).Bounds = dc.Bounds := by
  induction faces generalizing dc with
  | nil => rfl
  | cons face rest ih =>
    show (blurFaces filt over (blurFace filt over dc face) rest).Bounds = dc.Bounds
    rw [ih, blurFace_Bounds]

theorem cropRegion_congr {α : Type} (dc dc1 : Image α) (face : Detection)
    (h : dc1.Bounds = dc.Bounds) : cropRegion dc1 face = cropRegion dc face := by
  rw [cropRegion, cropRegion, h]

/-- One iteration of `blurFaces` on a detection with `Scale ≥ 0` writes only inside the
cropped region. -/
theorem blurFace_frame {α : Type} [Inhabited α] (filt : Image α → Int → Int → α)
    (over : α → α → α) (dc : Image α) (face : Detection) (h : 0 ≤ face.Scale) (x y : Int)
    (hout : (Point.mk x y).In (cropRegion dc face) = false) :
    (blurFace filt over dc face).At x y = dc.At x y := by
  have ht : face.Scale.tdiv 2 = face.Scale / 2 := Int.tdiv_eq_ediv h (by decide)
  have hc := (Crop_spec dc (faceRect face)).1
  have hcond : ((Point.mk x y).In dc.Bounds &&
      (Point.mk (x - (face.Col - face.Scale.tdiv 2)
          + (Blur filt (Crop dc (faceRect face))).Bounds.Min.X)
        (y - (face.Row - face.Scale.tdiv 2)
          + (Blur filt (Crop dc (faceRect face))).Bounds.Min.Y)).In
        (Blur filt (Crop dc (faceRect face))).Bounds) = false := by
    rw [← Bool.not_eq_true, Bool.and_eq_true]
    rintro ⟨hin, hp⟩
    rw [← Bool.not_eq_true] at hout
    apply hout
    rcases Intersect_cases (faceRect face) dc.Bounds with ⟨h1, _⟩ | ⟨h1, hx, hy⟩
    · exfalso
      rw [h1] at hc
      have hb : (Blur filt (Crop dc (faceRect face))).Bounds = ZR := by
        simp only [Blur, hc]
        rfl
      rw [hb, In_ZR] at hp
      exact absurd hp (by decide)
    · rw [h1] at hc
      have hd : (Crop dc (faceRect face)).Bounds =
          ⟨⟨0, 0⟩, ⟨min (faceRect face).Max.X dc.Bounds.Max.X
              - max (faceRect face).Min.X dc.Bounds.Min.X,
            min (faceRect face).Max.Y dc.Bounds.Max.Y
              - max (faceRect face).Min.Y dc.Bounds.Min.Y⟩⟩ := by
        rw [hc]
        exact Rect_origin _ _ (by simp only [Rectangle.Dx]; omega)
          (by simp only [Rectangle.Dy]; omega)
      have hb : (Blur filt (Crop dc (faceRect face))).Bounds =
          ⟨⟨0, 0⟩, ⟨min (faceRect face).Max.X dc.Bounds.Max.X
              - max (faceRect face).Min.X dc.Bounds.Min.X,
            min (faceRect face).Max.Y dc.Bounds.Max.Y
              - max (faceRect face).Min.Y dc.Bounds.Min.Y⟩⟩ := by
        simp only [Blur, hd, Rectangle.Dx, Rectangle.Dy, Int.sub_zero]
        exact Rect_origin _ _ (by omega) (by omega)
      rw [hb, In_iff] at hp
      rw [In_iff] at hin
      rw [cropRegion, h1, In_iff]
      rw [faceRect_of_nonneg face h] at hp hx hy ⊢
      rw [ht] at hp
      simp only at hp hin hx hy ⊢
      omega
  unfold blurFace DrawImage
  simp only [hcond, Bool.false_eq_true, if_false]

/-- A detection with the negative scale `-4` at the centre of a 10 x 10 canvas: the
region cropped is `[3, 3, 7, 7]`, the patch is pasted at `(7, 7)`, and pixel `(7, 7)`,
outside the cropped region, is overwritten. -/
theorem blurFaces_frame_negative_scale :
    (Point.mk 7 7).In (cropRegion (newCanvas 10 10 (fun x y => (x, y))) ⟨5, 5, -4, 0⟩) = false ∧
      (blurFaces (fun img x y => img.At x y) (fun s _ => s)
          (newCanvas 10 10 (fun x y => (x, y))) [⟨5, 5, -4, 0⟩]).At 7 7
        ≠ (newCanvas 10 10 (fun x y => (x, y))).At 7 7 := by
  decide

/-- C4 (amended): for every canvas and every list of detections with `Scale ≥ 0`,
`blurFaces` keeps the bounds of the canvas and leaves unchanged every pixel that lies
outside the union of the detections' canvas-clipped crop regions, whatever the blur
filter and the compositing operator are; for an empty list the canvas is returned as
it is. -/
theorem blurFaces_frame {α : Type} [Inhabited α] (filt : Image α → Int → Int → α)
    (over : α → α → α) (dc : Image α) (faces : List Detection)
    (hs : ∀ face ∈ faces, 0 ≤ face.Scale) :
    (blurFaces filt over dc faces).Bounds = dc.Bounds ∧
      (∀ x y, (∀ face ∈ faces, (Point.mk x y).In (cropRegion dc face) = false) →
        (blurFaces filt over dc faces).At x y = dc.At x y) ∧
      blurFaces filt over dc [] = dc := by
  refine ⟨blurFaces_Bounds filt over faces dc, ?_, rfl⟩
  intro x y
  induction faces generalizing dc with
  | nil => intro _; rfl
  | cons face rest ih =>
    intro hout
    show (blurFaces filt over (blurFace filt over dc face) rest).At x y = dc.At x y
    rw [ih (blurFace filt over dc face) (fun f hf => hs f (List.mem_cons_of_mem _ hf))
      (fun f hf => by
        rw [cropRegion_congr dc _ f (blurFace_Bounds filt over dc face)]
        exact hout f (List.mem_cons_of_mem _ hf))]
    exact blurFace_frame filt over dc face (hs face (List.mem_cons_self _ _)) x y
      (hout face (List.mem_cons_self _ _))

theorem blurFaces_frame_witness :
    (∀ face ∈ [Detection.mk 2 2 10 0, Detection.mk 5 5 3 0], (0 : Int) ≤ face.Scale) ∧
      (∀ face ∈ [Detection.mk 2 2 10 0, Detection.mk 5 5 3 0],
        (Point.mk 8 9).In (cropRegion (newCanvas 10 10 (fun x y => (x, y))) face) = false) ∧
      (blurFaces (fun _ _ _ => (0, 0)) (fun s _ => s) (newCanvas 10 10 (fun x y => (x, y)))
        [⟨2, 2, 10, 0⟩, ⟨5, 5, 3, 0⟩]).At 8 9 = (8, 9) :=
  ⟨by decide, by decide,
    (blurFaces_frame (fun _ _ _ => (0, 0)) (fun s _ => s) (newCanvas 10 10 (fun x y => (x, y)))
      [⟨2, 2, 10, 0⟩, ⟨5, 5, 3, 0⟩] (by decide)).2.1 8 9 (by decide)⟩

/-! ## Format dispatch -/

/-- C5: `encodeImage` picks the encoder from the extension of a file destination:
`.jpg`, `.jpeg` and no extension give `jpeg.Encode` at quality 100, `.png` gives
`png.Encode`, and each time the error of that one encoder invocation is returned; any
other extension is rejected with an error and no encoder is invoked; a destination that
is not a file is encoded by `jpeg.Encode` at quality 100. -/
theorem encodeImage_dispatch {α : Type} (enc : EncoderCall → Image α → Writer → Option String)
    (img : Image α) :
    (∀ name, Ext name = ".jpg" ∨ Ext name = ".jpeg" ∨ Ext name = "" →
        encodeImage enc img (.osFile name)
          = ⟨[.jpeg 100], enc (.jpeg 100) img (.osFile name)⟩) ∧
      (∀ name, Ext name = ".png" →
        encodeImage enc img (.osFile name) = ⟨[.png], enc .png img (.osFile name)⟩) ∧
      (∀ name, Ext name ≠ ".jpg" → Ext name ≠ ".jpeg" → Ext name ≠ "" → Ext name ≠ ".png" →
        (encodeImage enc img (.osFile name)).calls = [] ∧
          (encodeImage enc img (.osFile name)).err.isSome = true) ∧
      encodeImage enc img .other = ⟨[.jpeg 100], enc (.jpeg 100) img .other⟩ := by
  refine ⟨?_, ?_, ?_, rfl⟩
  · intro name h
    have h1 : Ext name = "" ∨ Ext name = ".jpg" ∨ Ext name = ".jpeg" := by tauto
    simp only [encodeImage, h1, if_true]
  · intro name h
    have h1 : ¬ (Ext name = "" ∨ Ext name = ".jpg" ∨ Ext name = ".jpeg") := by
      rw [h]
      decide
    unfold encodeImage
    simp only [if_neg h1, if_pos h]
  · intro name h1 h2 h3 h4
    have h5 : ¬ (Ext name = "" ∨ Ext name = ".jpg" ∨ Ext name = ".jpeg") := by tauto
    unfold encodeImage
    simp only [if_neg h5, if_neg h4]
    exact ⟨trivial, rfl⟩

theorem encodeImage_dispatch_witness :
    (Ext "face.jpeg" = ".jpg" ∨ Ext "face.jpeg" = ".jpeg" ∨ Ext "face.jpeg" = "") ∧
      encodeImage (fun _ _ _ => none) (newCanvas 1 1 (fun _ _ => (0 : Int)))
          (.osFile "face.jpeg") = ⟨[.jpeg 100], none⟩ ∧
      Ext "face.png" = ".png" ∧
      encodeImage (fun _ _ _ => none) (newCanvas 1 1 (fun _ _ => (0 : Int)))
          (.osFile "face.png") = ⟨[.png], none⟩ ∧
      (encodeImage (fun _ _ _ => none) (newCanvas 1 1 (fun _ _ => (0 : Int)))
          (.osFile "face.bmp")).calls = [] :=
  ⟨by decide,
    (encodeImage_dispatch (fun _ _ _ => none) (newCanvas 1 1 (fun _ _ => (0 : Int)))).1
      "face.jpeg" (by decide),
    by decide,
    (encodeImage_dispatch (fun _ _ _ => none) (newCanvas 1 1 (fun _ _ => (0 : Int)))).2.1
      "face.png" (by decide),
    ((encodeImage_dispatch (fun _ _ _ => none) (newCanvas 1 1 (fun _ _ => (0 : Int)))).2.2.1
      "face.bmp" (by decide) (by decide) (by decide) (by decide)).1⟩

theorem extScan_nil_or_dot (rev acc : List Char) :
    extScan rev acc = [] ∨ ∃ t, extScan rev acc = '.' :: t := by
  induction rev generalizing acc with
  | nil => exact Or.inl rfl
  | cons c rev ih =>
    unfold extScan
    split_ifs
    · exact Or.inl rfl
    · exact Or.inr ⟨acc, rfl⟩
    · exact ih (c :: acc)

/-- An extension returned by `filepath.Ext` is empty or begins with a dot. -/
theorem Ext_nil_or_dot (path : String) :
    Ext path = "" ∨ ∃ t, (Ext path).data = '.' :: t := by
  rcases extScan_nil_or_dot path.data.reverse [] with h | ⟨t, h⟩
  · left
    unfold Ext
    rw [h]
  · exact Or.inr ⟨t, h⟩

/-- For the file destination `out.bmp` the extension is `.bmp`, not one of the supported
ones, and the error returned is `unsupported image format`, which does not contain
`.bmp`. -/
theorem encodeImage_error_omits_extension :
    Ext "out.bmp" = ".bmp" ∧
      (encodeImage (fun _ _ _ => none) (newCanvas 1 1 (fun _ _ => (0 : Int)))
        (.osFile "out.bmp")).err = some "unsupported image format" ∧
      ¬ (Ext "out.bmp").data <:+: ("unsupported image format" : String).data := by
  decide

/-- C6 (amended): for every file destination whose extension is not `""`, `.jpg`, `.jpeg`
or `.png`, `encodeImage` invokes no encoder and fails with the fixed error message
`unsupported image format`; the message does not contain the extension. -/
theorem encodeImage_unsupported {α : Type}
    (enc : EncoderCall → Image α → Writer → Option String) (img : Image α) (name : String)
    (h1 : Ext name ≠ "") (h2 : Ext name ≠ ".jpg") (h3 : Ext name ≠ ".jpeg")
    (h4 : Ext name ≠ ".png") :
    encodeImage enc img (.osFile name) = ⟨[], some "unsupported image format"⟩ ∧
      ¬ (Ext name).data <:+: ("unsupported image format" : String).data := by
  constructor
  · have h5 : ¬ (Ext name = "" ∨ Ext name = ".jpg" ∨ Ext name = ".jpeg") := by tauto
    unfold encodeImage
    simp only [if_neg h5, if_neg h4]
  · rcases Ext_nil_or_dot name with h | ⟨t, h⟩
    · exact absurd h h1
    · intro hin
      have hmem : '.' ∈ ("unsupported image format" : String).data :=
        hin.subset (by rw [h]; exact List.mem_cons_self _ _)
      revert hmem
      decide

theorem encodeImage_unsupported_witness :
    Ext "out.tar.gz" ≠ "" ∧
      encodeImage (fun _ _ _ => none) (newCanvas 1 1 (fun _ _ => (0 : Int)))
        (.osFile "out.tar.gz") = ⟨[], some "unsupported image format"⟩ :=
  ⟨by decide,
    (encodeImage_unsupported (fun _ _ _ => none) (newCanvas 1 1 (fun _ _ => (0 : Int)))
      "out.tar.gz" (by decide) (by decide) (by decide) (by decide)).1⟩

/-! ## Error propagation in `BlurFaces` -/

theorem detectFaces_open_error {α π φ : Type} [Inhabited α] (lib : Lib α π φ)
    (f : FaceBluring α π φ) (source err : String) (h : lib.osOpen source = .error err) :
    detectFaces lib f source
      = ⟨f, .error ("Can not open " ++ source ++ " error: " ++ err), [.osOpen source]⟩ := by
  unfold detectFaces
  rw [h]

theorem detectFaces_decode_error {α π φ : Type} [Inhabited α] (lib : Lib α π φ)
    (f : FaceBluring α π φ) (source err : String) (srcFile : List Nat)
    (h : lib.osOpen source = .ok srcFile) (hd : lib.DecodeImage srcFile = .error err) :
    detectFaces lib f source
      = ⟨f, .error ("Decode image error: " ++ err), [.osOpen source, .decodeImage, .close]⟩ := by
  unfold detectFaces
  rw [h]
  simp only [hd]

/-- The canvas `detectFaces` creates for a decoded image: a new context of the size of
the image with the image drawn at the origin. -/
theorem detectFaces_success {α π φ : Type} [Inhabited α] (lib : Lib α π φ)
    (f : FaceBluring α π φ) (source : String) (srcFile : List Nat) (src : Image α)
    (h : lib.osOpen source = .ok srcFile) (hd : lib.DecodeImage srcFile = .ok src) :
    (detectFaces lib f source).f.dc
        = some (DrawImage lib.over
            (newCanvas src.Bounds.Max.X src.Bounds.Max.Y (fun _ _ => default)) src 0 0) ∧
      (detectFaces lib f source).trace
        = [.osOpen source, .decodeImage, .runCascade, .clusterDetections f.fd.IouThreshold,
            .close] ∧
      (detectFaces lib f source).f.fd = f.fd := by
  unfold detectFaces
  rw [h]
  simp only [hd]
  exact ⟨trivial, trivial, trivial⟩

/-- When `detectFaces` succeeds the source was opened and decoded and the canvas is set. -/
theorem detectFaces_ok {α π φ : Type} [Inhabited α] (lib : Lib α π φ)
    (f : FaceBluring α π φ) (source : String) (faces : List Detection)
    (h : (detectFaces lib f source).result = .ok faces) :
    ∃ srcFile src dc, lib.osOpen source = .ok srcFile ∧ lib.DecodeImage srcFile = .ok src ∧
      (detectFaces lib f source).f.dc = some dc := by
  cases ho : lib.osOpen source with
  | error e =>
    rw [detectFaces_open_error lib f source e ho] at h
    exact absurd h (by simp)
  | ok srcFile =>
    cases hd : lib.DecodeImage srcFile with
    | error e =>
      rw [detectFaces_decode_error lib f source e srcFile ho hd] at h
      exact absurd h (by simp)
    | ok src => exact ⟨srcFile, src, _, rfl, hd, (detectFaces_success lib f source srcFile src ho hd).1⟩

/-- C7: if the source cannot be opened, or is opened but cannot be decoded, `BlurFaces`
returns a non-nil error without a panic, leaves the instance (and so its canvas) as it
was, and makes no call after the single failed attempt, in particular no encoder call
that could write to the destination; and whenever `detectFaces` succeeds, `BlurFaces`
does not panic and returns exactly the error (or nil) that `encodeImage` returns on the
blurred canvas. -/
theorem BlurFaces_error_propagation {α π φ : Type} [Inhabited α] (lib : Lib α π φ)
    (f : FaceBluring α π φ) (source : String) (dst : Writer) :
    (∀ err, lib.osOpen source = .error err →
        (BlurFaces lib f source dst).err.isSome = true ∧
          (BlurFaces lib f source dst).panicked = none ∧
          (BlurFaces lib f source dst).f = f ∧
          (BlurFaces lib f source dst).trace = [.osOpen source]) ∧
      (∀ srcFile err, lib.osOpen source = .ok srcFile → lib.DecodeImage srcFile = .error err →
        (BlurFaces lib f source dst).err.isSome = true ∧
          (BlurFaces lib f source dst).panicked = none ∧
          (BlurFaces lib f source dst).f = f ∧
          (BlurFaces lib f source dst).trace = [.osOpen source, .decodeImage, .close]) ∧
      (∀ faces, (detectFaces lib f source).result = .ok faces →
        ∃ dc, (detectFaces lib f source).f.dc = some dc ∧
          (BlurFaces lib f source dst).panicked = none ∧
          (BlurFaces lib f source dst).err
            = (encodeImage lib.enc (blurFaces lib.filt lib.over dc faces) dst).err) := by
  refine ⟨?_, ?_, ?_⟩
  · intro err h
    unfold BlurFaces
    rw [detectFaces_open_error lib f source err h]
    exact ⟨rfl, rfl, rfl, rfl⟩
  · intro srcFile err h hd
    unfold BlurFaces
    rw [detectFaces_decode_error lib f source err srcFile h hd]
    exact ⟨rfl, rfl, rfl, rfl⟩
  · intro faces h
    obtain ⟨_, _, dc, _, _, hdc⟩ := detectFaces_ok lib f source faces h
    refine ⟨dc, hdc, ?_, ?_⟩
    · unfold BlurFaces
      simp only [h, hdc]
    · unfold BlurFaces
      simp only [h, hdc]

theorem BlurFaces_error_propagation_witness :
    demoLib.osOpen "./missing.jpg" = .error "no such file or directory" ∧
      (BlurFaces demoLib demoInstance "./missing.jpg" (.osFile "./out.jpg")).trace
        = [.osOpen "./missing.jpg"] ∧
      demoLib.osOpen "./corrupt.jpg" = .ok [3] ∧
      demoLib.DecodeImage [3] = .error "image: unknown format" ∧
      (BlurFaces demoLib demoInstance "./corrupt.jpg" (.osFile "./out.jpg")).trace
        = [.osOpen "./corrupt.jpg", .decodeImage, .close] ∧
      (detectFaces demoLib demoInstance "./3.jpg").result = .ok [⟨5, 5, 4, 1⟩] ∧
      (BlurFaces demoLib demoInstance "./3.jpg" (.osFile "./out.bmp")).panicked = none :=
  ⟨rfl,
    ((BlurFaces_error_propagation demoLib demoInstance "./missing.jpg" (.osFile "./out.jpg")).1
      "no such file or directory" rfl).2.2.2,
    rfl, rfl,
    ((BlurFaces_error_propagation demoLib demoInstance "./corrupt.jpg" (.osFile "./out.jpg")).2.1
      [3] "image: unknown format" rfl rfl).2.2.2,
    rfl,
    (((BlurFaces_error_propagation demoLib demoInstance "./3.jpg" (.osFile "./out.bmp")).2.2
      [⟨5, 5, 4, 1⟩] rfl).choose_spec).2.1⟩

/-! ## Start-up: `New` -/

/-- The cascade file name `New` reads is the one of the given configuration, the empty
name for a nil configuration. -/
theorem resolveConfig_CascadeFile (config : Option Config) :
    (resolveConfig config).CascadeFile = (config.getD Config.zero).CascadeFile := by
  cases config <;>
    simp only [resolveConfig, Option.getD, apply_ite Config.CascadeFile, ite_self]

/-- C8: if the cascade file named by `CascadeFile` cannot be read, or is read but cannot
be unpacked, `New` panics with a message that describes the failure (the file name and
the cause, or the cause of the unpack failure) and returns no instance; and whenever `New`
returns an instance, the cascade file was read and unpacked and the instance holds that
classifier. -/
theorem New_aborts_without_cascade {α π φ : Type} (lib : Lib α π φ) (config : Option Config) :
    (∀ err, lib.ReadFile (config.getD Config.zero).CascadeFile = .error err →
        New lib config = .error ("Can not open cascade file "
          ++ (config.getD Config.zero).CascadeFile ++ " error: " ++ err)) ∧
      (∀ cascadeFile err, lib.ReadFile (config.getD Config.zero).CascadeFile = .ok cascadeFile →
        lib.Unpack cascadeFile = .error err →
        New lib config = .error ("Unpack cascade file error: " ++ err)) ∧
      (∀ instance0, New lib config = .ok instance0 →
        ∃ cascadeFile, lib.ReadFile (config.getD Config.zero).CascadeFile = .ok cascadeFile ∧
          lib.Unpack cascadeFile = .ok instance0.classifier) := by
  rw [← resolveConfig_CascadeFile]
  refine ⟨?_, ?_, ?_⟩
  · intro err h
    unfold New
    simp only [h]
  · intro cascadeFile err h hu
    unfold New
    simp only [h, hu]
  · intro inst h
    unfold New at h
    cases hr : lib.ReadFile (resolveConfig config).CascadeFile with
    | error e => simp only [hr] at h; exact absurd h (by simp)
    | ok cascadeFile =>
      cases hu : lib.Unpack cascadeFile with
      | error e => simp only [hr, hu] at h; exact absurd h (by simp)
      | ok classifier =>
        simp only [hr, hu] at h
        cases hp : loadPuploc lib (resolveConfig config) with
        | error e => simp only [hp] at h; exact absurd h (by simp)
        | ok pf =>
          simp only [hp] at h
          injection h with h
          subst h
          exact ⟨cascadeFile, rfl, hu⟩

theorem New_aborts_without_cascade_witness :
    demoLib.ReadFile ((some { Config.zero with CascadeFile := "./missing" }).getD
        Config.zero).CascadeFile = .error "no such file or directory" ∧
      (∃ msg, New demoLib (some { Config.zero with CascadeFile := "./missing" })
        = .error msg) ∧
      demoLib.ReadFile ((some { Config.zero with CascadeFile := "./cascade/broken" }).getD
        Config.zero).CascadeFile = .ok [0] ∧
      demoLib.Unpack [0] = .error "invalid cascade" ∧
      New demoLib (some { Config.zero with CascadeFile := "./cascade/broken" })
        = .error ("Unpack cascade file error: " ++ "invalid cascade") :=
  ⟨rfl,
    ⟨_, (New_aborts_without_cascade demoLib
      (some { Config.zero with CascadeFile := "./missing" })).1
        "no such file or directory" rfl⟩,
    rfl, rfl,
    (New_aborts_without_cascade demoLib
      (some { Config.zero with CascadeFile := "./cascade/broken" })).2.1
        [0] "invalid cascade" rfl rfl⟩

/-! ## Configuration defaults -/

theorem eqZero_default_iou : (Float64.finite (2 / 10)).eqZero = false := by
  simp [Float64.eqZero]

theorem resolveConfig_IouThreshold (config : Option Config) :
    (resolveConfig config).IouThreshold =
      if (config.getD Config.zero).IouThreshold.eqZero then .finite (2 / 10)
      else (config.getD Config.zero).IouThreshold := by
  cases config <;>
    simp only [resolveConfig, Option.getD, apply_ite Config.IouThreshold, ite_self]

theorem New_fd {α π φ : Type} (lib : Lib α π φ) (config : Option Config)
    (instance0 : FaceBluring α π φ) (h : New lib config = .ok instance0) :
    instance0.fd = resolveConfig config := by
  unfold New at h
  cases hr : lib.ReadFile (resolveConfig config).CascadeFile with
  | error e => simp only [hr] at h; exact absurd h (by simp)
  | ok cascadeFile =>
    cases hu : lib.Unpack cascadeFile with
    | error e => simp only [hr, hu] at h; exact absurd h (by simp)
    | ok classifier =>
      simp only [hr, hu] at h
      cases hp : loadPuploc lib (resolveConfig config) with
      | error e => simp only [hp] at h; exact absurd h (by simp)
      | ok pf =>
        simp only [hp] at h
        injection h with h
        subst h
        rfl

/-- The only threshold `detectFaces` hands to `ClusterDetections` is `f.fd.IouThreshold`. -/
theorem detectFaces_threshold {α π φ : Type} [Inhabited α] (lib : Lib α π φ)
    (f : FaceBluring α π φ) (source : String) (thr : Float64)
    (h : Event.clusterDetections thr ∈ (detectFaces lib f source).trace) :
    thr = f.fd.IouThreshold := by
  cases ho : lib.osOpen source with
  | error e =>
    rw [detectFaces_open_error lib f source e ho] at h
    simp at h
  | ok srcFile =>
    cases hd : lib.DecodeImage srcFile with
    | error e =>
      rw [detectFaces_decode_error lib f source e srcFile ho hd] at h
      simp at h
    | ok src =>
      rw [(detectFaces_success lib f source srcFile src ho hd).2.1] at h
      simpa using h

theorem resolveConfig_MinSize (config : Option Config) :
    (resolveConfig config).MinSize =
      if (config.getD Config.zero).MinSize = 0 then 20
      else (config.getD Config.zero).MinSize := by
  cases config <;>
    simp only [resolveConfig, Option.getD, apply_ite Config.MinSize, ite_self]

theorem resolveConfig_MaxSize (config : Option Config) :
    (resolveConfig config).MaxSize =
      if (config.getD Config.zero).MaxSize = 0 then 1000
      else (config.getD Config.zero).MaxSize := by
  cases config <;>
    simp only [resolveConfig, Option.getD, apply_ite Config.MaxSize, ite_self]

theorem resolveConfig_ShiftFactor (config : Option Config) :
    (resolveConfig config).ShiftFactor =
      if (config.getD Config.zero).ShiftFactor.eqZero then .finite (1 / 10)
      else (config.getD Config.zero).ShiftFactor := by
  cases config <;>
    simp only [resolveConfig, Option.getD, apply_ite Config.ShiftFactor, ite_self]

theorem resolveConfig_ScaleFactor (config : Option Config) :
    (resolveConfig config).ScaleFactor =
      if (config.getD Config.zero).ScaleFactor.eqZero then .finite (11 / 10)
      else (config.getD Config.zero).ScaleFactor := by
  cases config <;>
    simp only [resolveConfig, Option.getD, apply_ite Config.ScaleFactor, ite_self]

theorem resolveConfig_Angle (config : Option Config) :
    (resolveConfig config).Angle = (config.getD Config.zero).Angle := by
  cases config <;>
    simp only [resolveConfig, Option.getD, apply_ite Config.Angle, ite_self]

theorem resolveConfig_Destination (config : Option Config) :
    (resolveConfig config).Destination = (config.getD Config.zero).Destination := by
  cases config <;>
    simp only [resolveConfig, Option.getD, apply_ite Config.Destination, ite_self]

theorem resolveConfig_Puploc (config : Option Config) :
    (resolveConfig config).Puploc = (config.getD Config.zero).Puploc := by
  cases config <;>
    simp only [resolveConfig, Option.getD, apply_ite Config.Puploc, ite_self]

theorem resolveConfig_Flploc (config : Option Config) :
    (resolveConfig config).Flploc = (config.getD Config.zero).Flploc := by
  cases config <;>
    simp only [resolveConfig, Option.getD, apply_ite Config.Flploc, ite_self]

theorem resolveConfig_MarkDetEyes (config : Option Config) :
    (resolveConfig config).MarkDetEyes = (config.getD Config.zero).MarkDetEyes := by
  cases config <;>
    simp only [resolveConfig, Option.getD, apply_ite Config.MarkDetEyes, ite_self]

/-- A configured zero threshold resolves like a configured 0.2. -/
theorem resolveConfig_zero_iou (c : Config) (hc : c.IouThreshold.eqZero = true) :
    resolveConfig (some c) = resolveConfig (some { c with IouThreshold := .finite (2 / 10) }) := by
  unfold resolveConfig
  simp only [hc, eqZero_default_iou, if_true, Bool.false_eq_true, if_false]
  split_ifs <;> rfl

/-- C9: the configuration `New` resolves from a given one (the zero `Config` for nil) has
`MinSize`, `MaxSize`, `ShiftFactor`, `ScaleFactor` and `IouThreshold` replaced by 20, 1000,
0.1, 1.1 and 0.2 where they are zero and left as given where they are not, `Angle` and the
other fields as given (`Angle` is 0 for nil); so the resolved `IouThreshold` is never
zero, a configured zero resolves like a configured 0.2, an instance returned by `New`
carries the resolved configuration, and the threshold `detectFaces` hands to
`ClusterDetections` on such an instance is never zero. -/
theorem resolveConfig_defaults {α π φ : Type} [Inhabited α] (lib : Lib α π φ)
    (config : Option Config) :
    ((resolveConfig config).MinSize =
        if (config.getD Config.zero).MinSize = 0 then 20
        else (config.getD Config.zero).MinSize) ∧
      ((resolveConfig config).MaxSize =
        if (config.getD Config.zero).MaxSize = 0 then 1000
        else (config.getD Config.zero).MaxSize) ∧
      ((resolveConfig config).ShiftFactor =
        if (config.getD Config.zero).ShiftFactor.eqZero then .finite (1 / 10)
        else (config.getD Config.zero).ShiftFactor) ∧
      ((resolveConfig config).ScaleFactor =
        if (config.getD Config.zero).ScaleFactor.eqZero then .finite (11 / 10)
        else (config.getD Config.zero).ScaleFactor) ∧
      ((resolveConfig config).IouThreshold =
        if (config.getD Config.zero).IouThreshold.eqZero then .finite (2 / 10)
        else (config.getD Config.zero).IouThreshold) ∧
      (resolveConfig config).Angle = (config.getD Config.zero).Angle ∧
      (resolveConfig none).Angle = .finite 0 ∧
      ((resolveConfig config).CascadeFile = (config.getD Config.zero).CascadeFile ∧
        (resolveConfig config).Destination = (config.getD Config.zero).Destination ∧
        (resolveConfig config).Puploc = (config.getD Config.zero).Puploc ∧
        (resolveConfig config).Flploc = (config.getD Config.zero).Flploc ∧
        (resolveConfig config).MarkDetEyes = (config.getD Config.zero).MarkDetEyes) ∧
      (resolveConfig config).IouThreshold.eqZero = false ∧
      (∀ c : Config, c.IouThreshold.eqZero = true →
        resolveConfig (some c) = resolveConfig (some { c with IouThreshold := .finite (2 / 10) })) ∧
      (∀ instance0, New lib config = .ok instance0 →
        instance0.fd = resolveConfig config ∧
          ∀ source thr,
            Event.clusterDetections thr ∈ (detectFaces lib instance0 source).trace →
              thr.eqZero = false) := by
  have hiou := resolveConfig_IouThreshold config
  have hnz : (resolveConfig config).IouThreshold.eqZero = false := by
    rw [hiou]
    split_ifs with hz
    · exact eqZero_default_iou
    · simpa using hz
  refine ⟨resolveConfig_MinSize config, resolveConfig_MaxSize config,
    resolveConfig_ShiftFactor config, resolveConfig_ScaleFactor config, hiou,
    resolveConfig_Angle config, rfl,
    ⟨resolveConfig_CascadeFile config, resolveConfig_Destination config,
      resolveConfig_Puploc config, resolveConfig_Flploc config,
      resolveConfig_MarkDetEyes config⟩, hnz, resolveConfig_zero_iou, ?_⟩
  · intro inst h
    have hfd := New_fd lib config inst h
    refine ⟨hfd, fun source thr hmem => ?_⟩
    rw [detectFaces_threshold lib inst source thr hmem, hfd]
    exact hnz

theorem resolveConfig_defaults_witness :
    mainConfig.IouThreshold.eqZero = true ∧
      resolveConfig (some mainConfig)
        = resolveConfig (some { mainConfig with IouThreshold := .finite (2 / 10) }) ∧
      New demoLib (some mainConfig) = .ok demoInstance ∧
      demoInstance.fd = resolveConfig (some mainConfig) :=
  ⟨rfl,
    (resolveConfig_defaults demoLib (some mainConfig)).2.2.2.2.2.2.2.2.2.1 mainConfig rfl,
    rfl,
    ((resolveConfig_defaults demoLib (some mainConfig)).2.2.2.2.2.2.2.2.2.2 demoInstance rfl).1⟩

/-! ## Detection clustering: the number of clusters -/

/-- Enough fuel: with at least one unit of fuel per detection the result of `greedy` does
not depend on the fuel. -/
theorem greedy_fuel (ov : Detection → Detection → Bool) :
    ∀ (n m : Nat) (l : List Detection), l.length ≤ n → l.length ≤ m →
      greedy ov n l = greedy ov m l := by
  intro n
  induction n with
  | zero =>
    intro m l hn _
    have hl : l = [] := List.length_eq_zero.mp (Nat.le_zero.mp hn)
    subst hl
    cases m <;> rfl
  | succ n ih =>
    intro m l hn hm
    cases l with
    | nil => cases m <;> rfl
    | cons d rest =>
      cases m with
      | zero => simp at hm
      | succ m =>
        have hf : (rest.filter (fun e => !ov d e)).length ≤ rest.length :=
          List.length_filter_le _ _
        simp only [List.length_cons, Nat.add_le_add_iff_right] at hn hm
        show d :: greedy ov n _ = d :: greedy ov m _
        rw [ih m _ (le_trans hf hn) (le_trans hf hm)]

/-- The number of clusters `greedy` forms on a list, with fuel for the whole list. -/
theorem greedy_length_cons (ov : Detection → Detection → Bool) (d : Detection)
    (rest : List Detection) :
    (greedy ov (d :: rest).length (d :: rest)).length =
      1 + (greedy ov (rest.filter (fun e => !ov d e)).length
        (rest.filter (fun e => !ov d e))).length := by
  show (d :: greedy ov rest.length _).length = _
  rw [greedy_fuel ov rest.length (rest.filter (fun e => !ov d e)).length _
    (List.length_filter_le _ _) (le_refl _), List.length_cons, Nat.add_comm]

/-- Removing the detections that overlap `d` lowers the number of clusters by at most
one, when overlap is symmetric and transitive on the detections at hand. -/
theorem greedy_length_le_succ_filter (ov : Detection → Detection → Bool)
    (L : List Detection) (hsym : ∀ a b, ov a b = ov b a)
    (htr : ∀ a ∈ L, ∀ b ∈ L, ∀ c ∈ L, ov a b = true → ov b c = true → ov a c = true)
    (d : Detection) (hd : d ∈ L) :
    ∀ (n : Nat) (r : List Detection), r.length ≤ n → (∀ x ∈ r, x ∈ L) →
      (greedy ov r.length r).length ≤
        1 + (greedy ov (r.filter (fun e => !ov d e)).length
          (r.filter (fun e => !ov d e))).length := by
  intro n
  induction n with
  | zero =>
    intro r hn _
    have hl : r = [] := List.length_eq_zero.mp (Nat.le_zero.mp hn)
    subst hl
    simp [greedy]
  | succ n ih =>
    intro r hn hr
    cases r with
    | nil => simp [greedy]
    | cons e r1 =>
      simp only [List.length_cons, Nat.add_le_add_iff_right] at hn
      have he : e ∈ L := hr e (List.mem_cons_self _ _)
      have hr1 : ∀ x ∈ r1, x ∈ L := fun x hx => hr x (List.mem_cons_of_mem _ hx)
      rw [greedy_length_cons]
      cases hde : ov d e with
      | true =>
        have hfe : r1.filter (fun x => !ov e x) = r1.filter (fun x => !ov d x) := by
          apply List.filter_congr
          intro x hx
          have hxL := hr1 x hx
          cases hex : ov e x with
          | true => rw [htr d hd e he x hxL hde hex]
          | false =>
            cases hdx : ov d x with
            | false => rfl
            | true =>
              have hed : ov e d = true := by rw [hsym e d, hde]
              rw [htr e he d hd x hxL hed hdx] at hex
              exact absurd hex (by decide)
        have hfd : (e :: r1).filter (fun x => !ov d x) = r1.filter (fun x => !ov d x) := by
          rw [List.filter_cons]
          simp [hde]
        rw [hfe, hfd]
      | false =>
        have hfd : (e :: r1).filter (fun x => !ov d x)
            = e :: r1.filter (fun x => !ov d x) := by
          rw [List.filter_cons]
          simp [hde]
        rw [hfd, greedy_length_cons]
        have hcomm : (r1.filter (fun x => !ov d x)).filter (fun x => !ov e x)
            = (r1.filter (fun x => !ov e x)).filter (fun x => !ov d x) := by
          rw [List.filter_filter, List.filter_filter]
          apply List.filter_congr
          intro x _
          exact Bool.and_comm _ _
        rw [hcomm]
        have hlen : (r1.filter (fun x => !ov e x)).length ≤ n :=
          le_trans (List.length_filter_le _ _) hn
        have := ih (r1.filter (fun x => !ov e x)) hlen
          (fun x hx => hr1 x (List.mem_of_mem_filter hx))
        omega

/-- Fewer detections give no more clusters, when overlap is symmetric and transitive on
the detections at hand. -/
theorem greedy_length_sublist (ov : Detection → Detection → Bool)
    (L : List Detection) (hsym : ∀ a b, ov a b = ov b a)
    (htr : ∀ a ∈ L, ∀ b ∈ L, ∀ c ∈ L, ov a b = true → ov b c = true → ov a c = true) :
    ∀ (n : Nat) (l1 l2 : List Detection), l2.length ≤ n → (∀ x ∈ l2, x ∈ L) →
      List.Sublist l1 l2 →
      (greedy ov l1.length l1).length ≤ (greedy ov l2.length l2).length := by
  intro n
  induction n with
  | zero =>
    intro l1 l2 hn _ hsub
    have hl : l2 = [] := List.length_eq_zero.mp (Nat.le_zero.mp hn)
    subst hl
    have hl1 : l1 = [] := List.sublist_nil.mp hsub
    subst hl1
    exact le_refl _
  | succ n ih =>
    intro l1 l2 hn hL hsub
    cases hsub with
    | slnil => exact le_refl _
    | cons d hs =>
      rename_i r2
      simp only [List.length_cons, Nat.add_le_add_iff_right] at hn
      have hr2 : ∀ x ∈ r2, x ∈ L := fun x hx => hL x (List.mem_cons_of_mem _ hx)
      have h1 := ih l1 r2 hn hr2 hs
      have h2 := greedy_length_le_succ_filter ov L hsym htr d
        (hL d (List.mem_cons_self _ _)) r2.length r2 (le_refl _) hr2
      rw [greedy_length_cons]
      omega
    | cons₂ d hs =>
      rename_i r1 r2
      simp only [List.length_cons, Nat.add_le_add_iff_right] at hn
      have hr2 : ∀ x ∈ r2, x ∈ L := fun x hx => hL x (List.mem_cons_of_mem _ hx)
      rw [greedy_length_cons, greedy_length_cons]
      have := ih (r1.filter (fun e => !ov d e)) (r2.filter (fun e => !ov d e))
        (le_trans (List.length_filter_le _ _) hn)
        (fun x hx => hr2 x (List.mem_of_mem_filter hx)) (hs.filter _)
      omega

/-- A stricter overlap test gives no fewer clusters, when the weaker test is symmetric
and transitive on the detections at hand. -/
theorem greedy_length_mono (ov1 ov2 : Detection → Detection → Bool)
    (L : List Detection) (hsym : ∀ a b, ov1 a b = ov1 b a)
    (htr : ∀ a ∈ L, ∀ b ∈ L, ∀ c ∈ L, ov1 a b = true → ov1 b c = true → ov1 a c = true)
    (hle : ∀ a b, ov2 a b = true → ov1 a b = true) :
    ∀ (n : Nat) (l : List Detection), l.length ≤ n → (∀ x ∈ l, x ∈ L) →
      (greedy ov1 l.length l).length ≤ (greedy ov2 l.length l).length := by
  intro n
  induction n with
  | zero =>
    intro l hn _
    have hl : l = [] := List.length_eq_zero.mp (Nat.le_zero.mp hn)
    subst hl
    exact le_refl _
  | succ n ih =>
    intro l hn hL
    cases l with
    | nil => exact le_refl _
    | cons d rest =>
      simp only [List.length_cons, Nat.add_le_add_iff_right] at hn
      have hrest : ∀ x ∈ rest, x ∈ L := fun x hx => hL x (List.mem_cons_of_mem _ hx)
      rw [greedy_length_cons, greedy_length_cons]
      have hsub : List.Sublist (rest.filter (fun e => !ov1 d e))
          (rest.filter (fun e => !ov2 d e)) := by
        have heq : rest.filter (fun e => !ov1 d e)
            = (rest.filter (fun e => !ov2 d e)).filter (fun e => !ov1 d e) := by
          rw [List.filter_filter]
          apply List.filter_congr
          intro x _
          cases h1 : ov1 d x with
          | true => rfl
          | false =>
            cases h2 : ov2 d x with
            | false => rfl
            | true => rw [hle d x h2] at h1; exact absurd h1 (by decide)
        rw [heq]
        exact List.filter_sublist _
      have hlen2 : (rest.filter (fun e => !ov2 d e)).length ≤ n :=
        le_trans (List.length_filter_le _ _) hn
      have hmem2 : ∀ x ∈ rest.filter (fun e => !ov2 d e), x ∈ L :=
        fun x hx => hrest x (List.mem_of_mem_filter hx)
      have hA := greedy_length_sublist ov1 L hsym htr _ _ _ (le_refl _) hmem2 hsub
      have hB := ih _ hlen2 hmem2
      omega

theorem iou_comm (a b : Detection) : iou a b = iou b a := by
  unfold iou
  simp only []
  rw [min_comm ((a.Row : ℚ) + a.Scale / 2), max_comm ((a.Row : ℚ) - a.Scale / 2),
    min_comm ((a.Col : ℚ) + a.Scale / 2), max_comm ((a.Col : ℚ) - a.Scale / 2),
    add_comm ((a.Scale : ℚ) * a.Scale)]

theorem overlaps_comm (τ : ℚ) (a b : Detection) : overlaps τ a b = overlaps τ b a := by
  unfold overlaps
  rw [iou_comm]

theorem overlaps_of_le (t1 t2 : ℚ) (h : t1 ≤ t2) (a b : Detection)
    (h2 : overlaps t2 a b = true) : overlaps t1 a b = true := by
  unfold overlaps at h2 ⊢
  rw [decide_eq_true_eq] at h2 ⊢
  exact lt_of_le_of_lt h h2

theorem byScore_length (dets : List Detection) : (byScore dets).length = dets.length :=
  List.length_insertionSort _ _

theorem mem_byScore (dets : List Detection) (x : Detection) :
    x ∈ byScore dets ↔ x ∈ dets :=
  List.mem_insertionSort _

/-- The hub example, with thresholds 0.45 and 0.6 in `(0, 1)`: at 0.45 the top-scored
detection absorbs the hub and the two neighbours stay apart (3 clusters); at 0.6 the hub
is free and absorbs both neighbours (2 clusters).  Raising the threshold lowered the
output count. -/
theorem ClusterDetections_not_monotone :
    (0 : ℚ) < 9 / 20 ∧ (9 / 20 : ℚ) ≤ 3 / 5 ∧ (3 / 5 : ℚ) < 1 ∧
      (ClusterDetections hubDetections (9 / 20)).length = 3 ∧
      (ClusterDetections hubDetections (3 / 5)).length = 2 := by
  decide!

/-- The same loss of a cluster occurs when the greedy grouping iterates in ascending
score order instead: the outcome does not hinge on the direction of the order. -/
theorem greedy_not_monotone_ascending :
    (greedy (overlaps (9 / 20)) hubDetectionsAscending.length
        (byScore hubDetectionsAscending).reverse).length = 3 ∧
      (greedy (overlaps (3 / 5)) hubDetectionsAscending.length
        (byScore hubDetectionsAscending).reverse).length = 2 := by
  decide!

/-- C10 (amended): for every sequence of raw detections and all thresholds
`t1 ≤ t2` in `(0, 1)`, if overlap at the lower threshold `t1` is transitive on the
detections of the sequence, then clustering with `t2` outputs at least as many
detections as clustering with `t1`. -/
theorem ClusterDetections_monotone_of_transitive (dets : List Detection) (t1 t2 : ℚ)
    (h0 : 0 < t1) (h12 : t1 ≤ t2) (h1 : t2 < 1)
    (htr : ∀ a ∈ dets, ∀ b ∈ dets, ∀ c ∈ dets,
      overlaps t1 a b = true → overlaps t1 b c = true → overlaps t1 a c = true) :
    (ClusterDetections dets t1).length ≤ (ClusterDetections dets t2).length := by
  have _ := h0
  have _ := h1
  unfold ClusterDetections
  rw [← byScore_length dets]
  exact greedy_length_mono (overlaps t1) (overlaps t2) dets (overlaps_comm t1) htr
    (overlaps_of_le t1 t2 h12) (byScore dets).length (byScore dets) (le_refl _)
    (fun x hx => (mem_byScore dets x).mp hx)

theorem ClusterDetections_monotone_of_transitive_witness :
    (0 : ℚ) < 1 / 10 ∧ (1 / 10 : ℚ) ≤ 9 / 10 ∧ (9 / 10 : ℚ) < 1 ∧
      (ClusterDetections farDetections (1 / 10)).length
        ≤ (ClusterDetections farDetections (9 / 10)).length :=
  ⟨by norm_num, by norm_num, by norm_num,
    ClusterDetections_monotone_of_transitive farDetections (1 / 10) (9 / 10)
      (by norm_num) (by norm_num) (by norm_num) (by decide!)⟩

end FaceBlur
